import Mathlib

/-!
Shallow embedding of the movie REST API's query engine
(`src/controllers/movieController.js` plus the Mongoose schema and routes).

The Record Store (MongoDB collection `movies`) is modelled as a
`List MovieRecord` in store-native order, or an error message when the read
fails (`Except String (List MovieRecord)`).  A BSON field is three-valued:
absent, explicit `null`, or a value.  JS numbers on the query path are exact
rationals plus a distinct NaN (stored `Review Rating` values are numeric per
the schema, so the model keeps them as `ℚ`).  Each Express handler becomes a
function from the store read (and its request parameters) to an HTTP-level
`Response`.
-/

/-- A BSON document field: absent, explicit null, or a value. -/
inductive Bson (α : Type) where
  | missing
  | nullv
  | value (a : α)
deriving DecidableEq

/-- Mongo `{$exists: true, $ne: null}`: the field holds an actual value. -/
def Bson.isPresent : Bson α → Bool
  | .value _ => true
  | _ => false

/-- One document of the `movies` collection, after the Mongoose schema:
Title, Genres, `Release Date`, `Release Country`, `Review Rating` (Number),
`Movie Run Time`, Plot, Cast, Language, `Filming Locations`. -/
structure MovieRecord where
  title : Bson String
  genres : Bson String
  releaseDate : Bson String
  releaseCountry : Bson String
  reviewRating : Bson ℚ
  movieRunTime : Bson String
  plot : Bson String
  cast : Bson String
  language : Bson String
  filmingLocations : Bson String
deriving DecidableEq

/-- A record with the three queried fields set and every other field absent. -/
def mkMovie (country : Bson String) (rating : Bson ℚ) (date : Bson String) :
    MovieRecord :=
  ⟨.missing, .missing, date, country, rating, .missing, .missing, .missing,
    .missing, .missing⟩

/-- An HTTP-level result: 200 with a JSON body, 404 with a message body, or
500 with a message body. -/
inductive Response (α : Type) where
  | ok (body : α)
  | notFound (message : String)
  | serverError (message : String)
deriving DecidableEq

/-- A JS number on the query path: NaN or an exact rational. -/
inductive JsNum where
  | nan
  | num (q : ℚ)
deriving DecidableEq

/-- Numeric value of an ASCII digit character. -/
def digitVal (c : Char) : Nat := c.toNat - '0'.toNat

/-- Value of a string of ASCII digits, most significant first. -/
def digitsToNat (ds : List Char) : Nat :=
  ds.foldl (fun acc c => 10 * acc + digitVal c) 0

/-- The JS builtin `parseFloat` on plain decimal numerals: optional leading
spaces, optional sign, digits with an optional fractional part, trailing
characters ignored; NaN when no digit is found.  (Exponents and `Infinity`
are outside the fragment the routes exercise.) -/
def parseFloat (s : String) : JsNum :=
  let cs := s.toList.dropWhile (fun c => c = ' ')
  let signed : ℚ × List Char :=
    match cs with
    | '-' :: rest => (-1, rest)
    | '+' :: rest => (1, rest)
    | _ => (1, cs)
  let ip := signed.2.takeWhile Char.isDigit
  let rest := signed.2.dropWhile Char.isDigit
  let fp :=
    match rest with
    | '.' :: tail => tail.takeWhile Char.isDigit
    | _ => []
  if ip.isEmpty && fp.isEmpty then .nan
  else
    .num (signed.1 *
      ((digitsToNat ip : ℚ) + (digitsToNat fp : ℚ) / (10 : ℚ) ^ fp.length))

/-- Mongo `{'Review Rating': {$gte: t}}` with a numeric query value: only a
numeric stored field can match, and a NaN threshold matches only NaN stored
values — none exist in the model, where stored ratings are exact rationals. -/
def ratingGte (f : Bson ℚ) (t : JsNum) : Bool :=
  match f, t with
  | .value r, .num q => decide (q ≤ r)
  | _, _ => false

/-- Mongo's ascending sort order on the `Review Rating` field: absent and
null sort together, below every number. -/
def ratingLe : Bson ℚ → Bson ℚ → Bool
  | .value x, .value y => decide (x ≤ y)
  | .value _, _ => false
  | _, _ => true

/-- The comparison behind `.sort({'Review Rating': -1})`: `a` is ranked no
later than `b` when `b`'s rating is at most `a`'s in Mongo's field order. -/
def byRatingDesc (a b : MovieRecord) : Prop :=
  ratingLe b.reviewRating a.reviewRating = true

instance : DecidableRel byRatingDesc := fun a b =>
  inferInstanceAs (Decidable (ratingLe b.reviewRating a.reviewRating = true))

/-- GET /api/movies — `Movie.find({})`. -/
def getAllMovies (store : Except String (List MovieRecord)) :
    Response (List MovieRecord) :=
  match store with
  | .error e => .serverError e
  | .ok movies => .ok movies

/-- The query of `getMoviesWithRatingAboveSpecified`:
`Movie.find({'Review Rating': {$gte: rating}})`, preserving store order. -/
def findRatingGte (movies : List MovieRecord) (t : JsNum) : List MovieRecord :=
  movies.filter (fun m => ratingGte m.reviewRating t)

/-- GET /api/movies/rating/:rating — `parseFloat(req.params.rating)` then
`Movie.find({'Review Rating': {$gte: rating}})`. -/
def getMoviesWithRatingAboveSpecified (store : Except String (List MovieRecord))
    (ratingParam : String) : Response (List MovieRecord) :=
  let rating := parseFloat ratingParam
  match store with
  | .error e => .serverError e
  | .ok movies => .ok (findRatingGte movies rating)

/-- The query of `getMoviesWithBestRating`:
`Movie.find({}).sort({'Review Rating': -1}).limit(10)`. -/
def topRatedQuery (movies : List MovieRecord) : List MovieRecord :=
  (List.insertionSort byRatingDesc movies).take 10

/-- GET /api/movies/top-rated. -/
def getMoviesWithBestRating (store : Except String (List MovieRecord)) :
    Response (List MovieRecord) :=
  match store with
  | .error e => .serverError e
  | .ok movies => .ok (topRatedQuery movies)

/-- The `$match` regex `/^\d{1,2}-[A-Za-z]{3}-\d{2}$/` as a whole-string
test: one or two ASCII digits, `-`, three ASCII letters, `-`, two digits. -/
def matchesDateRegex : List Char → Bool
  | [a, '-', m1, m2, m3, '-', y1, y2] =>
      a.isDigit && m1.isAlpha && m2.isAlpha && m3.isAlpha &&
        y1.isDigit && y2.isDigit
  | [a, b, '-', m1, m2, m3, '-', y1, y2] =>
      a.isDigit && b.isDigit && m1.isAlpha && m2.isAlpha && m3.isAlpha &&
        y1.isDigit && y2.isDigit
  | _ => false

/-- The regex `$match` on the `Release Date` field: a regex only ever
matches an actual string value, so absent and null fields are dropped. -/
def releaseDateConforms (m : MovieRecord) : Bool :=
  match m.releaseDate with
  | .value s => matchesDateRegex s.toList
  | _ => false

/-- Mongo `$split` on a one-character separator. -/
def splitOnChar (sep : Char) : List Char → List (List Char)
  | [] => [[]]
  | c :: cs =>
    if c = sep then [] :: splitOnChar sep cs
    else
      match splitOnChar sep cs with
      | [] => [[c]]
      | p :: ps => (c :: p) :: ps

/-- Mongo `$toInt` on the all-digit strings the pipeline feeds it ( `$toInt`
errors on anything else, which the preceding `$match` rules out). -/
def toIntAgg (cs : List Char) : Option Int :=
  if cs ≠ [] ∧ cs.all Char.isDigit then some (digitsToNat cs : Int) else none

/-- Stages 2–3 of the per-year pipeline:
`yearNum = $toInt($arrayElemAt($split(ReleaseDate, '-'), 2))`, then
`ReleaseYear = yearNum + 2000`. -/
def deriveYear (cs : List Char) : Option Int :=
  match (splitOnChar '-' cs)[2]? with
  | some part => (toIntAgg part).map (fun n => n + 2000)
  | none => none

/-- The records the per-year pipeline's first `$match` keeps. -/
def conformingRecords (movies : List MovieRecord) : List MovieRecord :=
  movies.filter (fun m => releaseDateConforms m)

/-- The derived `ReleaseYear` of every conforming record, with multiplicity,
in store order. -/
def releaseYears (movies : List MovieRecord) : List Int :=
  (conformingRecords movies).filterMap (fun m =>
    match m.releaseDate with
    | .value s => deriveYear s.toList
    | _ => none)

/-- The aggregation of `getMoviesPerYear`: `$group` by `ReleaseYear` with
`count: {$sum: 1}`, then `$sort {_id: 1}` — one `(year, count)` pair per
distinct derived year, ascending. -/
def moviesPerYearQuery (movies : List MovieRecord) : List (Int × Nat) :=
  let years := releaseYears movies
  ((List.insertionSort (fun a b : Int => a ≤ b) years).dedup).map
    (fun y => (y, years.count y))

/-- GET /api/movies/movies-per-year. -/
def getMoviesPerYear (store : Except String (List MovieRecord)) :
    Response (List (Int × Nat)) :=
  match store with
  | .error e => .serverError e
  | .ok movies => .ok (moviesPerYearQuery movies)

/-- One group of the top-countries aggregation:
`{_id: country, avgRating, movieCount}`. -/
structure CountrySummary where
  country : String
  avgRating : ℚ
  movieCount : Nat
deriving DecidableEq

/-- The first `$match` of the top-countries pipeline: both `Review Rating`
and `Release Country` exist and are non-null; the pair of values kept. -/
def qualifyingPairs (movies : List MovieRecord) : List (String × ℚ) :=
  movies.filterMap (fun m =>
    match m.releaseCountry, m.reviewRating with
    | .value c, .value r => some (c, r)
    | _, _ => none)

/-- The ratings of one country's group. -/
def groupRatings (pairs : List (String × ℚ)) (c : String) : List ℚ :=
  pairs.filterMap (fun p => if p.1 = c then some p.2 else none)

/-- The `$group` stage: one summary per distinct `Release Country`, with
`avgRating: {$avg}` and `movieCount: {$sum: 1}`. -/
def countryGroups (movies : List MovieRecord) : List CountrySummary :=
  let pairs := qualifyingPairs movies
  ((pairs.map Prod.fst).dedup).map (fun c =>
    let rs := groupRatings pairs c
    ⟨c, rs.sum / (rs.length : ℚ), rs.length⟩)

/-- One character of a `$regex` pattern in the fragment the model covers:
`.` is the wildcard, every other character is a literal. -/
inductive RegexToken where
  | dot
  | lit (c : Char)

/-- Reading a pattern whose only metacharacter is `.` (the model's fragment
of PCRE; patterns using other metacharacters are outside the model). -/
def tokenOf (c : Char) : RegexToken := if c = '.' then .dot else .lit c

/-- Case-insensitive (`$options: 'i'`, ASCII folding) single-token match. -/
def tokenMatches : RegexToken → Char → Bool
  | .dot, _ => true
  | .lit c, d => c.toLower = d.toLower

/-- Anchored-at-the-front match of a token sequence. -/
def matchHere : List RegexToken → List Char → Bool
  | [], _ => true
  | _ :: _, [] => false
  | t :: ts, c :: cs => tokenMatches t c && matchHere ts cs

/-- Unanchored search: the tokens match starting at some position. -/
def regexSearch (ts : List RegexToken) : List Char → Bool
  | [] => matchHere ts []
  | c :: cs => matchHere ts (c :: cs) || regexSearch ts cs

/-- Mongo `{$regex: pat, $options: 'i'}` for patterns whose only
metacharacter is `.`: case-insensitive unanchored search of the pattern. -/
def mongoRegexMatchI (pat s : String) : Bool :=
  regexSearch (pat.toList.map tokenOf) s.toList

/-- Truthiness of `req.query.country` in
`...(countryQuery ? [{$match: ...}] : [])` and
`if (countryQuery && ...)`: absent and the empty string are falsy. -/
def isTruthy : Option String → Bool
  | none => false
  | some s => !s.isEmpty

/-- The comparison behind `$sort {avgRating: -1}`. -/
def byAvgDesc (a b : CountrySummary) : Prop := b.avgRating ≤ a.avgRating

instance : DecidableRel byAvgDesc := fun a b =>
  inferInstanceAs (Decidable (b.avgRating ≤ a.avgRating))

/-- The aggregation of `getTopCountriesByRating`: qualify, group, drop
groups under 10 movies, optionally `$match` the `_id` against the query
regex (stage present only when the query is truthy), sort by average rating
descending. -/
def topCountriesPipeline (movies : List MovieRecord)
    (countryQuery : Option String) : List CountrySummary :=
  let grouped := countryGroups movies
  let atLeast10 := grouped.filter (fun g => 10 ≤ g.movieCount)
  let filtered :=
    if isTruthy countryQuery then
      atLeast10.filter (fun g => mongoRegexMatchI (countryQuery.getD "") g.country)
    else atLeast10
  List.insertionSort byAvgDesc filtered

/-- The handler's 404 body for a filtered-empty result. -/
def countryNotFoundMessage (q : String) : String :=
  "Country \"" ++ q ++ "\" not found or has fewer than 10 movies."

/-- GET /api/movies/top-countries — run the pipeline, then
`if (countryQuery && topCountries.length === 0)` return 404, else 200. -/
def getTopCountriesByRating (store : Except String (List MovieRecord))
    (countryQuery : Option String) : Response (List CountrySummary) :=
  match store with
  | .error e => .serverError e
  | .ok movies =>
    let topCountries := topCountriesPipeline movies countryQuery
    if isTruthy countryQuery && topCountries.length == 0 then
      .notFound (countryNotFoundMessage (countryQuery.getD ""))
    else
      .ok topCountries

/-! ## Order facts for the two sort comparisons -/

theorem ratingLe_total (x y : Bson ℚ) : ratingLe x y = true ∨ ratingLe y x = true := by
  cases x <;> cases y <;> simp [ratingLe]
  exact le_total _ _

theorem ratingLe_trans {x y z : Bson ℚ} (hxy : ratingLe x y = true)
    (hyz : ratingLe y z = true) : ratingLe x z = true := by
  cases x <;> cases y <;> cases z <;> simp_all [ratingLe]
  exact le_trans hxy hyz

instance : IsTotal MovieRecord byRatingDesc :=
  ⟨fun a b => ratingLe_total b.reviewRating a.reviewRating⟩

instance : IsTrans MovieRecord byRatingDesc :=
  ⟨fun _ _ _ hab hbc => ratingLe_trans hbc hab⟩

instance : IsTotal CountrySummary byAvgDesc :=
  ⟨fun a b => le_total b.avgRating a.avgRating⟩

instance : IsTrans CountrySummary byAvgDesc :=
  ⟨fun _ _ _ hab hbc => le_trans hbc hab⟩

/-! ## Query-level facts -/

theorem ratingGte_num_iff (f : Bson ℚ) (r : ℚ) :
    ratingGte f (.num r) = true ↔ ∃ x, f = .value x ∧ r ≤ x := by
  cases f <;> simp [ratingGte]

theorem ratingGte_nan (f : Bson ℚ) : ratingGte f .nan = false := by
  cases f <;> rfl

/-! ## Concrete stores used by the scenario conjuncts and witnesses -/

/-- Twelve Norway records whose ratings average 7.5 and nine Sweden records
rated 9, per the spec's scenario. -/
def norwaySwedenStore : List MovieRecord :=
  List.replicate 6 (mkMovie (.value "Norway") (.value 7) .missing)
  ++ List.replicate 6 (mkMovie (.value "Norway") (.value 8) .missing)
  ++ List.replicate 9 (mkMovie (.value "Sweden") (.value 9) .missing)

/-- Ten qualifying records for country `"USA"`, all rated 5. -/
def usaStore : List MovieRecord :=
  List.replicate 10 (mkMovie (.value "USA") (.value 5) .missing)

/-- Three records with a rating and eight with a null or absent rating. -/
def sparserRatedStore : List MovieRecord :=
  List.replicate 3 (mkMovie (.value "X") (.value 5) .missing)
  ++ List.replicate 4 (mkMovie .missing .nullv .missing)
  ++ List.replicate 4 (mkMovie .missing .missing .missing)

/-! ## The claims -/

/-- C5: for every numeric threshold `r`, the rating query returns exactly the
subset of `ListAll`'s records (a sublist, in store order) whose
`Review Rating` is present and at least `r`, and never a record whose rating
is absent or null. -/
theorem minRating_exact_subset (movies : List MovieRecord) (r : ℚ) :
    getAllMovies (.ok movies) = .ok movies
    ∧ List.Sublist (findRatingGte movies (.num r)) movies
    ∧ (∀ m, m ∈ findRatingGte movies (.num r) ↔
        m ∈ movies ∧ ∃ x, m.reviewRating = .value x ∧ r ≤ x)
    ∧ (∀ m ∈ findRatingGte movies (.num r), m.reviewRating.isPresent = true) := by
  refine ⟨rfl, List.filter_sublist _, fun m => ?_, fun m hm => ?_⟩
  · rw [findRatingGte, List.mem_filter, ratingGte_num_iff]
  · rcases (List.mem_filter.mp hm).2 with hg
    rcases (ratingGte_num_iff m.reviewRating r).mp hg with ⟨x, hx, _⟩
    rw [hx]
    rfl

/-- C6: when the rating path parameter fails to parse, the threshold is NaN
and the `$gte` comparison matches no records, so the handler answers an
ordinary 200 with an empty list rather than rejecting the request. -/
theorem minRating_parse_failure_empty (movies : List MovieRecord)
    (param : String) (h : parseFloat param = .nan) :
    getMoviesWithRatingAboveSpecified (.ok movies) param = .ok []
    ∧ findRatingGte movies .nan = [] := by
  have he : findRatingGte movies .nan = [] := by
    rw [findRatingGte, List.filter_eq_nil_iff]
    intro m _
    simp [ratingGte_nan]
  refine ⟨?_, he⟩
  simp only [getMoviesWithRatingAboveSpecified, h, he]

/-- C6 witness: the parameter `"abc"` fails to parse, and the query over a
concrete one-record store answers 200 with the empty list. -/
theorem minRating_parse_failure_witness :
    parseFloat "abc" = .nan
    ∧ (getMoviesWithRatingAboveSpecified
          (.ok [mkMovie .missing (.value 5) .missing]) "abc" = .ok []
        ∧ findRatingGte [mkMovie .missing (.value 5) .missing] .nan = []) :=
  ⟨by decide,
    minRating_parse_failure_empty [mkMovie .missing (.value 5) .missing] "abc"
      (by decide)⟩

/-- C7: the top-rated query returns at most 10 records, and a record ranked
before another has a `Review Rating` at least as large in Mongo's field
order (ties resolved however the sort resolves them). -/
theorem topRated_bounded_and_sorted (movies : List MovieRecord) :
    getMoviesWithBestRating (.ok movies) = .ok (topRatedQuery movies)
    ∧ (topRatedQuery movies).length ≤ 10
    ∧ List.Pairwise byRatingDesc (topRatedQuery movies) :=
  ⟨rfl, List.length_take_le 10 _,
    (List.sorted_insertionSort byRatingDesc movies).sublist
      (List.take_sublist 10 _)⟩

/-- C8: a failing store read yields HTTP 500 carrying the error text verbatim
for each of the five operations, and for the top-countries route the failure
is surfaced rather than any 404. -/
theorem store_failure_yields_500 (e : String) (param : String)
    (q : Option String) :
    getAllMovies (.error e) = .serverError e
    ∧ getMoviesWithRatingAboveSpecified (.error e) param = .serverError e
    ∧ getMoviesWithBestRating (.error e) = .serverError e
    ∧ getMoviesPerYear (.error e) = .serverError e
    ∧ getTopCountriesByRating (.error e) q = .serverError e
    ∧ ∀ msg, getTopCountriesByRating (.error e) q ≠ .notFound msg :=
  ⟨rfl, rfl, rfl, rfl, rfl, fun _ h => Response.noConfusion h⟩

/-- C10: an empty-string `country` query parameter behaves exactly like no
parameter: the filter stage is not added, the 404 outcome is unreachable, and
the response is the ordinary 200 with the unfiltered pipeline's rows. -/
theorem topCountries_empty_filter_like_none (movies : List MovieRecord) :
    topCountriesPipeline movies (some "") = topCountriesPipeline movies none
    ∧ getTopCountriesByRating (.ok movies) (some "")
        = .ok (topCountriesPipeline movies none)
    ∧ ∀ msg, getTopCountriesByRating (.ok movies) (some "") ≠ .notFound msg :=
  ⟨rfl, rfl, fun _ h => Response.noConfusion h⟩

/-- C3: the top-countries route answers the distinct 404 outcome (message in
the exact form, containing the filter value) precisely when a non-empty
filter was supplied and the filtered pipeline is empty; with no filter the
response is always an ordinary 200, so zero qualifying countries give an
empty list. -/
theorem topCountries_notFound_iff (movies : List MovieRecord) (q : String) :
    ((∃ msg, getTopCountriesByRating (.ok movies) (some q) = .notFound msg)
      ↔ (q ≠ "" ∧ topCountriesPipeline movies (some q) = []))
    ∧ (∀ msg, getTopCountriesByRating (.ok movies) (some q) = .notFound msg →
        msg = countryNotFoundMessage q)
    ∧ countryNotFoundMessage q
        = "Country \"" ++ q ++ "\" not found or has fewer than 10 movies."
    ∧ (∃ pre post, (countryNotFoundMessage q).data = pre ++ q.data ++ post)
    ∧ getTopCountriesByRating (.ok movies) none
        = .ok (topCountriesPipeline movies none) := by
  have key : getTopCountriesByRating (.ok movies) (some q)
      = if q ≠ "" ∧ topCountriesPipeline movies (some q) = []
        then .notFound (countryNotFoundMessage q)
        else .ok (topCountriesPipeline movies (some q)) := by
    by_cases hq : q = ""
    · subst hq
      have h0 : ("" : String).isEmpty = true := rfl
      simp [getTopCountriesByRating, isTruthy, h0]
    · have hqe : q.isEmpty = false := by
        rw [Bool.eq_false_iff]
        intro h
        exact hq ((String.isEmpty_iff q).mp h)
      by_cases hp : topCountriesPipeline movies (some q) = []
      · simp [getTopCountriesByRating, isTruthy, hqe, hp, hq]
      · simp [getTopCountriesByRating, isTruthy, hqe, hp, hq,
          List.length_eq_zero]
  refine ⟨?_, ?_, rfl, ?_, rfl⟩
  · rw [key]
    by_cases h : q ≠ "" ∧ topCountriesPipeline movies (some q) = []
    · simp [h]
    · simp only [if_neg h]
      simp [h]
  · intro msg hmsg
    rw [key] at hmsg
    by_cases h : q ≠ "" ∧ topCountriesPipeline movies (some q) = []
    · rw [if_pos h] at hmsg
      exact ((Response.notFound.injEq _ _).mp hmsg).symm
    · rw [if_neg h] at hmsg
      exact absurd hmsg (by simp)
  · refine ⟨("Country \"").data,
      ("\" not found or has fewer than 10 movies.").data, ?_⟩
    simp [countryNotFoundMessage, String.data_append]

/-- In Mongo's rating order nothing but a value is at least a value. -/
theorem ratingLe_value_isPresent {x : ℚ} {f : Bson ℚ}
    (h : ratingLe (.value x) f = true) : f.isPresent = true := by
  cases f <;> simp_all [ratingLe, Bson.isPresent]

/-- C9: the top-rated query does not restrict to rated records: it sorts and
truncates the whole collection, so with fewer than 10 present-rating records
but at least 10 records in total, the result contains a record whose rating
is absent or null, and every unrated record is placed after all rated
ones. -/
theorem topRated_contains_unrated (movies : List MovieRecord)
    (hfew : (movies.filter (fun m => m.reviewRating.isPresent)).length < 10)
    (hbig : 10 ≤ movies.length) :
    (∃ m ∈ topRatedQuery movies, m.reviewRating.isPresent = false)
    ∧ List.Pairwise
        (fun a b => b.reviewRating.isPresent = true →
          a.reviewRating.isPresent = true) (topRatedQuery movies) := by
  constructor
  · by_contra hno
    push_neg at hno
    have hlen : (topRatedQuery movies).length = 10 := by
      simp [topRatedQuery, List.length_take,
        (List.perm_insertionSort byRatingDesc movies).length_eq]
      omega
    have hcount : (topRatedQuery movies).countP
        (fun m => m.reviewRating.isPresent) = (topRatedQuery movies).length := by
      rw [List.countP_eq_length]
      intro m hm
      have hm2 := hno m hm
      simpa using hm2
    have hle : (topRatedQuery movies).countP (fun m => m.reviewRating.isPresent)
        ≤ movies.countP (fun m => m.reviewRating.isPresent) :=
      le_trans ((List.take_sublist 10 _).countP_le _)
        (le_of_eq ((List.perm_insertionSort byRatingDesc movies).countP_eq _))
    have hfew2 : movies.countP (fun m => m.reviewRating.isPresent) < 10 := by
      rw [List.countP_eq_length_filter]
      exact hfew
    omega
  · have hs : List.Pairwise byRatingDesc (topRatedQuery movies) :=
      (List.sorted_insertionSort byRatingDesc movies).sublist
        (List.take_sublist 10 _)
    refine hs.imp ?_
    intro a b hab hb
    rcases hx : b.reviewRating with _ | _ | x
    · rw [hx] at hb
      exact absurd hb (by simp [Bson.isPresent])
    · rw [hx] at hb
      exact absurd hb (by simp [Bson.isPresent])
    · rw [byRatingDesc, hx] at hab
      exact ratingLe_value_isPresent hab

/-- C9 witness: a store of 3 rated and 8 unrated records. -/
theorem topRated_contains_unrated_witness :
    (((sparserRatedStore.filter (fun m => m.reviewRating.isPresent)).length < 10)
      ∧ 10 ≤ sparserRatedStore.length)
    ∧ ((∃ m ∈ topRatedQuery sparserRatedStore, m.reviewRating.isPresent = false)
      ∧ List.Pairwise
          (fun a b => b.reviewRating.isPresent = true →
            a.reviewRating.isPresent = true) (topRatedQuery sparserRatedStore)) :=
  ⟨⟨by decide, by decide⟩,
    topRated_contains_unrated sparserRatedStore (by decide) (by decide)⟩

/-- C4 counterexample: the handler passes the filter to the store as a
regular expression, so the pattern `"u.a"` — not a case-insensitive literal
substring of `"USA"` — still retains the `"USA"` group. -/
theorem topCountries_filter_counterexample :
    getTopCountriesByRating (.ok usaStore) (some "u.a")
        = .ok [⟨"USA", 5, 10⟩]
    ∧ ¬ List.IsInfix ("u.a".toList.map Char.toLower)
        ("USA".toList.map Char.toLower) := by
  constructor
  · with_unfolding_all decide
  · decide

/-- C4 as amended: with a non-empty filter, a group is kept exactly when its
country name matches the filter interpreted as a case-insensitive unanchored
regular expression (dot-wildcard fragment), not as a literal substring; in
particular the filter `"us"` retains a `"USA"` group backed by 10 qualifying
records. -/
theorem topCountries_filter_is_regex (movies : List MovieRecord) (q : String)
    (h : q ≠ "") :
    (∀ g, g ∈ topCountriesPipeline movies (some q) ↔
        (g ∈ topCountriesPipeline movies none
          ∧ mongoRegexMatchI q g.country = true))
    ∧ getTopCountriesByRating (.ok usaStore) (some "us")
        = .ok [⟨"USA", 5, 10⟩] := by
  constructor
  · intro g
    have hqe : q.isEmpty = false := by
      rw [Bool.eq_false_iff]
      intro hemp
      exact h ((String.isEmpty_iff q).mp hemp)
    have ht : isTruthy (some q) = true := by simp [isTruthy, hqe]
    have hgd : (some q).getD "" = q := rfl
    rw [topCountriesPipeline, topCountriesPipeline]
    simp only [ht, hgd, if_true, if_pos]
    rw [(List.perm_insertionSort byAvgDesc _).mem_iff,
      (List.perm_insertionSort byAvgDesc _).mem_iff, List.mem_filter]
    simp [isTruthy]
  · with_unfolding_all decide

/-- C4 witness: the amended characterization applied to the `"USA"` store
with the non-empty filter `"us"`. -/
theorem topCountries_filter_is_regex_witness :
    (∀ g, g ∈ topCountriesPipeline usaStore (some "us") ↔
        (g ∈ topCountriesPipeline usaStore none
          ∧ mongoRegexMatchI "us" g.country = true))
    ∧ getTopCountriesByRating (.ok usaStore) (some "us")
        = .ok [⟨"USA", 5, 10⟩] :=
  topCountries_filter_is_regex usaStore "us" (by decide)

/-- The ratings selected for one country are the second components of the
qualifying pairs whose first component is that country. -/
theorem groupRatings_eq (pairs : List (String × ℚ)) (c : String) :
    groupRatings pairs c
      = (pairs.filter (fun p => p.1 = c)).map Prod.snd := by
  induction pairs with
  | nil => rfl
  | cons p ps ih =>
    simp only [groupRatings] at ih ⊢
    rw [List.filterMap_cons, List.filter_cons]
    by_cases hp : p.1 = c
    · simp [hp, ih]
    · simp [hp, ih]

/-- A group's size is the number of qualifying records for its country. -/
theorem length_groupRatings (pairs : List (String × ℚ)) (c : String) :
    (groupRatings pairs c).length = (pairs.map Prod.fst).count c := by
  induction pairs with
  | nil => rfl
  | cons p ps ih =>
    simp only [groupRatings] at ih ⊢
    rw [List.filterMap_cons, List.map_cons, List.count_cons]
    by_cases hp : p.1 = c
    · simp [hp, ih]
    · simp [hp, ih]

/-- Membership in the `$group` stage's output: one summary per distinct
country among the qualifying pairs, carrying that country's mean rating and
record count. -/
theorem mem_countryGroups {movies : List MovieRecord} {g : CountrySummary} :
    g ∈ countryGroups movies ↔
      ∃ c, c ∈ ((qualifyingPairs movies).map Prod.fst).dedup
        ∧ g = ⟨c, (groupRatings (qualifyingPairs movies) c).sum /
            ((groupRatings (qualifyingPairs movies) c).length : ℚ),
            (groupRatings (qualifyingPairs movies) c).length⟩ := by
  constructor
  · intro hg
    rcases List.mem_map.mp hg with ⟨c, hc, hceq⟩
    exact ⟨c, hc, hceq.symm⟩
  · rintro ⟨c, hc, hgeq⟩
    exact hgeq ▸ List.mem_map.mpr ⟨c, hc, rfl⟩

/-- The grouped summaries list each distinct qualifying country once. -/
theorem map_country_countryGroups (movies : List MovieRecord) :
    (countryGroups movies).map CountrySummary.country
      = ((qualifyingPairs movies).map Prod.fst).dedup := by
  simp only [countryGroups, List.map_map]
  exact List.map_id _

/-- C1: with no filter, the top-countries pipeline returns one group per
distinct `Release Country` having at least 10 qualifying records — each
carrying that country's qualifying-record count and mean rating — sorted by
average rating descending; on the 12-Norway/9-Sweden store only Norway's
summary (average 7.5) comes back. -/
theorem topCountries_noFilter_spec (movies : List MovieRecord) :
    (∀ g ∈ topCountriesPipeline movies none, 10 ≤ g.movieCount)
    ∧ List.Pairwise byAvgDesc (topCountriesPipeline movies none)
    ∧ ((topCountriesPipeline movies none).map CountrySummary.country).Nodup
    ∧ (∀ c : String, (∃ g ∈ topCountriesPipeline movies none, g.country = c)
        ↔ 10 ≤ ((qualifyingPairs movies).map Prod.fst).count c)
    ∧ (∀ g ∈ topCountriesPipeline movies none,
        g.movieCount = ((qualifyingPairs movies).map Prod.fst).count g.country
        ∧ g.avgRating
            = (groupRatings (qualifyingPairs movies) g.country).sum
              / (g.movieCount : ℚ))
    ∧ getTopCountriesByRating (.ok norwaySwedenStore) none
        = .ok [⟨"Norway", 15/2, 12⟩] := by
  have hpl : topCountriesPipeline movies none
      = List.insertionSort byAvgDesc
          ((countryGroups movies).filter (fun g => 10 ≤ g.movieCount)) := rfl
  have hmem : ∀ g, g ∈ topCountriesPipeline movies none ↔
      g ∈ countryGroups movies ∧ 10 ≤ g.movieCount := by
    intro g
    rw [hpl, (List.perm_insertionSort byAvgDesc _).mem_iff, List.mem_filter]
    simp
  refine ⟨fun g hg => ((hmem g).mp hg).2, ?_, ?_, ?_, ?_, ?_⟩
  · rw [hpl]
    exact List.sorted_insertionSort _ _
  · have hp2 : List.Perm
        ((topCountriesPipeline movies none).map CountrySummary.country)
        (((countryGroups movies).filter
            (fun g => 10 ≤ g.movieCount)).map CountrySummary.country) := by
      rw [hpl]
      exact (List.perm_insertionSort byAvgDesc _).map _
    have hsub : List.Sublist
        (((countryGroups movies).filter
            (fun g => 10 ≤ g.movieCount)).map CountrySummary.country)
        ((countryGroups movies).map CountrySummary.country) :=
      (List.filter_sublist _).map _
    have hnd : ((countryGroups movies).map CountrySummary.country).Nodup := by
      rw [map_country_countryGroups]
      exact List.nodup_dedup _
    exact ((hnd.sublist hsub).perm hp2.symm)
  · intro c
    constructor
    · rintro ⟨g, hg, rfl⟩
      rcases (hmem g).mp hg with ⟨hgrp, hcnt⟩
      rcases mem_countryGroups.mp hgrp with ⟨c2, hc2, rfl⟩
      simpa [length_groupRatings] using hcnt
    · intro hc
      have hpos : c ∈ (qualifyingPairs movies).map Prod.fst :=
        List.count_pos_iff.mp (by omega)
      have hded : c ∈ ((qualifyingPairs movies).map Prod.fst).dedup :=
        List.mem_dedup.mpr hpos
      refine ⟨_, (hmem _).mpr ⟨mem_countryGroups.mpr ⟨c, hded, rfl⟩, ?_⟩, rfl⟩
      simpa [length_groupRatings] using hc
  · intro g hg
    rcases mem_countryGroups.mp ((hmem g).mp hg).1 with ⟨c, hc, rfl⟩
    exact ⟨length_groupRatings _ _, rfl⟩
  · with_unfolding_all decide

/-- A digit character is not the separator. -/
theorem ne_dash_of_isDigit {c : Char} (h : c.isDigit = true) : ¬ c = '-' :=
  fun he => absurd h (by rw [he]; decide)

/-- A letter character is not the separator. -/
theorem ne_dash_of_isAlpha {c : Char} (h : c.isAlpha = true) : ¬ c = '-' :=
  fun he => absurd h (by rw [he]; decide)

/-- Splitting an 8-character conforming date on the dashes. -/
theorem splitOnChar_date1 (a m1 m2 m3 y1 y2 : Char) (ha : ¬ a = '-')
    (hm1 : ¬ m1 = '-') (hm2 : ¬ m2 = '-') (hm3 : ¬ m3 = '-')
    (hy1 : ¬ y1 = '-') (hy2 : ¬ y2 = '-') :
    splitOnChar '-' [a, '-', m1, m2, m3, '-', y1, y2]
      = [[a], [m1, m2, m3], [y1, y2]] := by
  simp [splitOnChar, ha, hm1, hm2, hm3, hy1, hy2]

/-- Splitting a 9-character conforming date on the dashes. -/
theorem splitOnChar_date2 (a b m1 m2 m3 y1 y2 : Char) (ha : ¬ a = '-')
    (hb : ¬ b = '-')
    (hm1 : ¬ m1 = '-') (hm2 : ¬ m2 = '-') (hm3 : ¬ m3 = '-')
    (hy1 : ¬ y1 = '-') (hy2 : ¬ y2 = '-') :
    splitOnChar '-' [a, b, '-', m1, m2, m3, '-', y1, y2]
      = [[a, b], [m1, m2, m3], [y1, y2]] := by
  simp [splitOnChar, ha, hb, hm1, hm2, hm3, hy1, hy2]

/-- `$toInt` on the two trailing digit characters. -/
theorem toIntAgg_two_digits {y1 y2 : Char} (h1 : y1.isDigit = true)
    (h2 : y2.isDigit = true) :
    toIntAgg [y1, y2] = some ((10 * digitVal y1 + digitVal y2 : Nat) : Int) := by
  rw [toIntAgg, if_pos]
  · rw [digitsToNat]
    simp [List.foldl]
  · simp [h1, h2]

/-- Every conforming date string ends in two digits, and its derived year is
2000 plus the value of that trailing two-digit component. -/
theorem deriveYear_of_matches (cs : List Char) (h : matchesDateRegex cs = true) :
    ∃ p y1 y2, cs = p ++ [y1, y2] ∧ y1.isDigit = true ∧ y2.isDigit = true
      ∧ deriveYear cs
          = some (2000 + ((10 * digitVal y1 + digitVal y2 : Nat) : Int)) := by
  unfold matchesDateRegex at h
  split at h
  · rename_i a m1 m2 m3 y1 y2
    simp only [Bool.and_eq_true] at h
    obtain ⟨⟨⟨⟨⟨had, hm1⟩, hm2⟩, hm3⟩, hy1⟩, hy2⟩ := h
    refine ⟨[a, '-', m1, m2, m3, '-'], y1, y2, rfl, hy1, hy2, ?_⟩
    rw [deriveYear, splitOnChar_date1 a m1 m2 m3 y1 y2
      (ne_dash_of_isDigit had) (ne_dash_of_isAlpha hm1) (ne_dash_of_isAlpha hm2)
      (ne_dash_of_isAlpha hm3) (ne_dash_of_isDigit hy1) (ne_dash_of_isDigit hy2)]
    simp [toIntAgg_two_digits hy1 hy2]
    omega
  · rename_i a b m1 m2 m3 y1 y2
    simp only [Bool.and_eq_true] at h
    obtain ⟨⟨⟨⟨⟨⟨had, hbd⟩, hm1⟩, hm2⟩, hm3⟩, hy1⟩, hy2⟩ := h
    refine ⟨[a, b, '-', m1, m2, m3, '-'], y1, y2, rfl, hy1, hy2, ?_⟩
    rw [deriveYear, splitOnChar_date2 a b m1 m2 m3 y1 y2
      (ne_dash_of_isDigit had) (ne_dash_of_isDigit hbd) (ne_dash_of_isAlpha hm1)
      (ne_dash_of_isAlpha hm2) (ne_dash_of_isAlpha hm3)
      (ne_dash_of_isDigit hy1) (ne_dash_of_isDigit hy2)]
    simp [toIntAgg_two_digits hy1 hy2]
    omega
  · exact absurd h (by simp)

/-- `filterMap` drops nothing when the function succeeds on every element. -/
theorem length_filterMap_of_isSome {α β : Type} (f : α → Option β) :
    ∀ l : List α, (∀ a ∈ l, (f a).isSome = true) →
      (l.filterMap f).length = l.length := by
  intro l hl
  induction l with
  | nil => rfl
  | cons a l ih =>
    rw [List.filterMap_cons]
    rcases hfa : f a with _ | b
    · exact absurd (hl a (by simp)) (by simp [hfa])
    · rw [List.length_cons, List.length_cons,
        ih (fun x hx => hl x (by simp [hx]))]

/-- Every conforming record contributes exactly one derived year. -/
theorem length_releaseYears (movies : List MovieRecord) :
    (releaseYears movies).length = (conformingRecords movies).length := by
  apply length_filterMap_of_isSome
  intro m hm
  have hconf : releaseDateConforms m = true :=
    (List.mem_filter.mp hm).2
  rcases hrd : m.releaseDate with _ | _ | s
  · rw [releaseDateConforms, hrd] at hconf
    exact absurd hconf (by simp)
  · rw [releaseDateConforms, hrd] at hconf
    exact absurd hconf (by simp)
  · rw [releaseDateConforms, hrd] at hconf
    rcases deriveYear_of_matches _ hconf with ⟨p, y1, y2, _, _, _, hdy⟩
    simp only [String.toList] at hdy
    simp [hrd, hdy]

/-- C2: the per-year aggregation keeps exactly the records whose
`Release Date` wholly matches the day-month-year pattern, derives each year
as 2000 plus the trailing two-digit component (so `"5-Jul-98"` maps to 2098),
returns strictly increasing years whose counts sum to the number of
conforming records, and excludes non-conforming records from this result
only — `ListAll` still returns every record. -/
theorem moviesPerYear_spec (movies : List MovieRecord) :
    List.Pairwise (fun a b : Int × Nat => a.1 < b.1) (moviesPerYearQuery movies)
    ∧ ((moviesPerYearQuery movies).map Prod.snd).sum
        = (conformingRecords movies).length
    ∧ (∀ y c, (y, c) ∈ moviesPerYearQuery movies ↔
        (y ∈ releaseYears movies ∧ c = (releaseYears movies).count y))
    ∧ (∀ cs : List Char, matchesDateRegex cs = true →
        ∃ p y1 y2, cs = p ++ [y1, y2] ∧ y1.isDigit = true ∧ y2.isDigit = true
          ∧ deriveYear cs
              = some (2000 + ((10 * digitVal y1 + digitVal y2 : Nat) : Int)))
    ∧ (matchesDateRegex ("5-Jul-98".toList) = true
        ∧ deriveYear ("5-Jul-98".toList) = some 2098)
    ∧ getAllMovies (.ok movies) = .ok movies := by
  have hperm : List.Perm
      (List.insertionSort (fun a b : Int => a ≤ b) (releaseYears movies))
      (releaseYears movies) := List.perm_insertionSort _ _
  have hd_lt : List.Pairwise (fun a b : Int => a < b)
      ((List.insertionSort (fun a b : Int => a ≤ b)
        (releaseYears movies)).dedup) := by
    have hle : List.Pairwise (fun a b : Int => a ≤ b)
        ((List.insertionSort (fun a b : Int => a ≤ b)
          (releaseYears movies)).dedup) :=
      (List.sorted_insertionSort _ _).sublist (List.dedup_sublist _)
    have hnd : ((List.insertionSort (fun a b : Int => a ≤ b)
        (releaseYears movies)).dedup).Nodup := List.nodup_dedup _
    exact (hle.and hnd).imp (fun hab => lt_of_le_of_ne hab.1 hab.2)
  refine ⟨?_, ?_, ?_, deriveYear_of_matches, ⟨by decide, by decide⟩, rfl⟩
  · have hmapped : List.Pairwise (fun a b : Int × Nat => a.1 < b.1)
        (moviesPerYearQuery movies) := by
      rw [moviesPerYearQuery]
      exact hd_lt.map _ (fun a b hab => by simpa using hab)
    exact hmapped
  · have hsnd : (moviesPerYearQuery movies).map Prod.snd
        = ((List.insertionSort (fun a b : Int => a ≤ b)
            (releaseYears movies)).dedup).map
              (fun y => (releaseYears movies).count y) := by
      simp only [moviesPerYearQuery, List.map_map]
      rfl
    rw [hsnd]
    have hcongr : ((List.insertionSort (fun a b : Int => a ≤ b)
        (releaseYears movies)).dedup).map
          (fun y => (releaseYears movies).count y)
        = ((List.insertionSort (fun a b : Int => a ≤ b)
            (releaseYears movies)).dedup).map
          (fun y => (List.insertionSort (fun a b : Int => a ≤ b)
            (releaseYears movies)).count y) :=
      List.map_congr_left (fun y _ => (hperm.count_eq y).symm)
    rw [hcongr, List.sum_map_count_dedup_eq_length, hperm.length_eq,
      length_releaseYears]
  · intro y c
    simp only [moviesPerYearQuery, List.mem_map]
    constructor
    · rintro ⟨y2, hy2, heq⟩
      rcases Prod.mk.injEq _ _ _ _ ▸ heq with ⟨rfl, rfl⟩
      exact ⟨hperm.mem_iff.mp (List.mem_dedup.mp hy2), rfl⟩
    · rintro ⟨hy, rfl⟩
      exact ⟨y, List.mem_dedup.mpr (hperm.mem_iff.mpr hy), rfl⟩
